import Mathlib

/-!
Shallow embedding of the statistical core of `src/app/streamlit_app.py`
(an A/B-testing dashboard): sample-ratio (SRM) chi-square check,
two-proportion z-test, Welch t-test from summary statistics, bootstrap
confidence intervals, and the CUPED covariate adjustment.

Conventions of the embedding:
* Exact rational arithmetic (`ℚ`) models the bootstrap and CUPED paths,
  whose operations are field operations on the inputs; real arithmetic
  (`ℝ`) models the test-statistic paths that involve square roots and
  distribution functions.
* Python scalar division (which raises `ZeroDivisionError` on a zero
  denominator) is modelled as an `Except` value; numpy elementwise
  division (which yields `nan`/`inf` instead of raising) is modelled by
  the `NpReal` type below.
* numpy's `default_rng(seed)` is a deterministic pseudo-random stream
  that is a pure function of the seed, constructed locally inside each
  bootstrap call; it is modelled by the deterministic congruential
  stream `rngNext`, threaded explicitly through each call.
-/

/-- Failure kinds used by the embedding.  `zeroDivisionError` is the
Python exception actually raised by the source on a zero denominator;
`insufficientSample` and `invalidAllocation` are the typed errors named
by the specification's error taxonomy (the source never produces them —
they are present so that statements about them can be formalised). -/
inductive ErrKind where
  | zeroDivisionError
  | insufficientSample
  | invalidAllocation
deriving DecidableEq, Repr

/-- Arithmetic mean of a list of rationals (`np.mean`); the empty list
maps to `0` (numpy would give `nan`, but the embedding only uses the
mean on lists that are nonempty on every path exercised). -/
def meanQ (l : List ℚ) : ℚ := l.sum / l.length

/-- Zero-default indexing into a list of rationals. -/
def nth : List ℚ → ℕ → ℚ
  | [], _ => 0
  | x :: _, 0 => x
  | _ :: xs, k + 1 => nth xs k

/-- Indexing clamped to the last position, as used by the linear
interpolation of `np.percentile`. -/
def sClamp (s : List ℚ) (k : ℕ) : ℚ := nth s (min k (s.length - 1))

/-- Linear-interpolation percentile of `np.percentile(l, q)` (the
default method): sort, take the virtual position `q/100·(n−1)`, and
interpolate linearly between the two neighbouring order statistics. -/
def percentileQ (l : List ℚ) (q : ℚ) : ℚ :=
  let s := l.insertionSort (· ≤ ·)
  let p := q / 100 * ((s.length : ℚ) - 1)
  sClamp s (⌊p⌋.toNat) + Int.fract p * (sClamp s (⌊p⌋.toNat + 1) - sClamp s (⌊p⌋.toNat))

/-- Deterministic model of the numpy `Generator` stream obtained from
`np.random.default_rng(seed)`: a linear congruential step on a 64-bit
state.  What matters for the claims is that the stream is a pure
function of the state and that each call owns its own state. -/
def rngNext (s : ℕ) : ℕ := (6364136223846793005 * s + 1442695040888963407) % (2 ^ 64)

/-- `rng.choice(v, size=k, replace=True)`: draw `k` values with
replacement from `v`, advancing the generator state once per draw.
(numpy raises on an empty `v`; the claims only use nonempty arrays.) -/
def sampleWR (v : List ℚ) : ℕ → ℕ → List ℚ × ℕ
  | 0, s => ([], s)
  | k + 1, s =>
      let s1 := rngNext s
      let x := nth v (s1 % v.length)
      let rest := sampleWR v k s1
      (x :: rest.1, rest.2)

/-- The resampling loop shared by `bootstrap_ci_mean_diff`,
`bootstrap_ci_prop_diff` and `bootstrap_samples_mean_diff` (their loop
bodies are textually identical): for each of `B` iterations, resample A
(size `|A|`) then B (size `|B|`) from the call's own stream and record
`mean(resample_B) − mean(resample_A)`. -/
def bootLoop (a b : List ℚ) : ℕ → ℕ → List ℚ
  | 0, _ => []
  | n + 1, s =>
      let ra := sampleWR a a.length s
      let rb := sampleWR b b.length ra.2
      (meanQ rb.1 - meanQ ra.1) :: bootLoop a b n rb.2

/-- `bootstrap_samples_mean_diff`: the raw distribution buffer, from a
generator constructed inside the call from the explicit seed. -/
def bootstrap_samples_mean_diff (a b : List ℚ) (B seed : ℕ) : List ℚ :=
  bootLoop a b B (rngNext seed)

/-- `bootstrap_ci_mean_diff`: `(diffs.mean(), (2.5th, 97.5th percentile))`
of the distribution buffer, flattened here to a triple
`(point_estimate, ci_low, ci_high)`. -/
def bootstrap_ci_mean_diff (a b : List ℚ) (B seed : ℕ) : ℚ × ℚ × ℚ :=
  let diffs := bootLoop a b B (rngNext seed)
  (meanQ diffs, percentileQ diffs 2.5, percentileQ diffs 97.5)

/-- `bootstrap_ci_prop_diff`: body identical to `bootstrap_ci_mean_diff`
(the 0/1-valued inputs make the mean a proportion). -/
def bootstrap_ci_prop_diff (a01 b01 : List ℚ) (B seed : ℕ) : ℚ × ℚ × ℚ :=
  let diffs := bootLoop a01 b01 B (rngNext seed)
  (meanQ diffs, percentileQ diffs 2.5, percentileQ diffs 97.5)

/-- One bootstrap call of the CI tab, bundling the buffer and the CI
result; the generator state is created inside the call from the call's
own seed, mirroring `rng = np.random.default_rng(seed)` being local to
each function body. -/
def runBootstrapCall (c : List ℚ × List ℚ × ℕ × ℕ) : List ℚ × (ℚ × ℚ × ℚ) :=
  (bootstrap_samples_mean_diff c.1 c.2.1 c.2.2.1 c.2.2.2,
   bootstrap_ci_mean_diff c.1 c.2.1 c.2.2.1 c.2.2.2)

-- Basic lemmas about the list helpers.

theorem nth_eq_get (s : List ℚ) (k : ℕ) (h : k < s.length) : nth s k = s.get ⟨k, h⟩ := by
  induction s generalizing k with
  | nil => simp at h
  | cons x xs ih =>
      cases k with
      | zero => rfl
      | succ k => exact ih k (by simpa using h)

theorem nth_mem (s : List ℚ) (k : ℕ) (h : k < s.length) : nth s k ∈ s := by
  rw [nth_eq_get s k h]; exact s.get_mem k h

theorem sorted_nth_mono {s : List ℚ} (hs : s.Sorted (· ≤ ·)) {i j : ℕ}
    (hij : i ≤ j) (hj : j < s.length) : nth s i ≤ nth s j := by
  have hi : i < s.length := lt_of_le_of_lt hij hj
  rw [nth_eq_get s i hi, nth_eq_get s j hj]
  exact hs.rel_get_of_le hij

theorem sClamp_mono {s : List ℚ} (hs : s.Sorted (· ≤ ·)) (hlen : 0 < s.length)
    {i j : ℕ} (hij : i ≤ j) : sClamp s i ≤ sClamp s j := by
  unfold sClamp
  exact sorted_nth_mono hs (min_le_min hij le_rfl)
    (lt_of_le_of_lt (min_le_right _ _) (by omega))

theorem percentileQ_mono (l : List ℚ) (hl : l ≠ []) {q1 q2 : ℚ}
    (h0 : 0 ≤ q1) (h12 : q1 ≤ q2) (h2 : q2 ≤ 100) :
    percentileQ l q1 ≤ percentileQ l q2 := by
  have hs : (l.insertionSort (· ≤ ·)).Sorted (· ≤ ·) := List.sorted_insertionSort _ l
  have hlen : 0 < (l.insertionSort (· ≤ ·)).length := by
    rw [List.length_insertionSort]; exact List.length_pos.mpr hl
  set s := l.insertionSort (· ≤ ·) with hsdef
  set n := s.length with hndef
  have hn1 : (1 : ℚ) ≤ (n : ℚ) := by exact_mod_cast hlen
  set p1 := q1 / 100 * ((n : ℚ) - 1) with hp1def
  set p2 := q2 / 100 * ((n : ℚ) - 1) with hp2def
  have hp0 : 0 ≤ p1 := mul_nonneg (div_nonneg h0 (by norm_num)) (by linarith)
  have hp12 : p1 ≤ p2 := by
    apply mul_le_mul_of_nonneg_right _ (by linarith)
    linarith
  have hI : ⌊p1⌋ ≤ ⌊p2⌋ := Int.floor_le_floor hp12
  have hI0 : 0 ≤ ⌊p1⌋ := Int.floor_nonneg.mpr hp0
  have ha12 : ⌊p1⌋.toNat ≤ ⌊p2⌋.toNat := Int.toNat_le_toNat hI
  have hg1a : 0 ≤ Int.fract p1 := Int.fract_nonneg p1
  have hg1b : Int.fract p1 < 1 := Int.fract_lt_one p1
  have hg2a : 0 ≤ Int.fract p2 := Int.fract_nonneg p2
  have hd1 : 0 ≤ sClamp s (⌊p1⌋.toNat + 1) - sClamp s ⌊p1⌋.toNat :=
    sub_nonneg.mpr (sClamp_mono hs hlen (Nat.le_succ _))
  have hd2 : 0 ≤ sClamp s (⌊p2⌋.toNat + 1) - sClamp s ⌊p2⌋.toNat :=
    sub_nonneg.mpr (sClamp_mono hs hlen (Nat.le_succ _))
  show sClamp s (⌊p1⌋.toNat) + Int.fract p1 * (sClamp s (⌊p1⌋.toNat + 1) - sClamp s (⌊p1⌋.toNat)) ≤
       sClamp s (⌊p2⌋.toNat) + Int.fract p2 * (sClamp s (⌊p2⌋.toNat + 1) - sClamp s (⌊p2⌋.toNat))
  rcases eq_or_lt_of_le hI with heq | hlt
  · have hnat : ⌊p1⌋.toNat = ⌊p2⌋.toNat := by rw [heq]
    rw [hnat]
    have hgle : Int.fract p1 ≤ Int.fract p2 := by
      simp only [Int.fract]
      rw [heq]
      linarith
    have := mul_le_mul_of_nonneg_right hgle hd2
    linarith
  · have hsucc : ⌊p1⌋.toNat + 1 ≤ ⌊p2⌋.toNat := by omega
    have step1 : Int.fract p1 * (sClamp s (⌊p1⌋.toNat + 1) - sClamp s (⌊p1⌋.toNat)) ≤
        sClamp s (⌊p1⌋.toNat + 1) - sClamp s (⌊p1⌋.toNat) := by
      have := mul_le_mul_of_nonneg_right (le_of_lt hg1b) hd1
      linarith
    have step2 : sClamp s (⌊p1⌋.toNat + 1) ≤ sClamp s ⌊p2⌋.toNat :=
      sClamp_mono hs hlen hsucc
    have step3 : 0 ≤ Int.fract p2 * (sClamp s (⌊p2⌋.toNat + 1) - sClamp s (⌊p2⌋.toNat)) :=
      mul_nonneg hg2a hd2
    linarith

theorem sampleWR_length (v : List ℚ) (k s : ℕ) : (sampleWR v k s).1.length = k := by
  induction k generalizing s with
  | zero => rfl
  | succ k ih => simp [sampleWR, ih]

theorem sampleWR_mem (v : List ℚ) (hv : v ≠ []) (k s : ℕ) :
    ∀ x ∈ (sampleWR v k s).1, x ∈ v := by
  induction k generalizing s with
  | zero => intro x hx; simp [sampleWR] at hx
  | succ k ih =>
      intro x hx
      simp only [sampleWR, List.mem_cons] at hx
      rcases hx with h | h
      · subst h
        exact nth_mem v _ (Nat.mod_lt _ (List.length_pos.mpr hv))
      · exact ih _ x h

theorem bootLoop_length (a b : List ℚ) (n s : ℕ) : (bootLoop a b n s).length = n := by
  induction n generalizing s with
  | zero => rfl
  | succ n ih => simp [bootLoop, ih]

theorem bootLoop_shape (a b : List ℚ) (ha : a ≠ []) (hb : b ≠ []) (n s : ℕ) :
    ∀ d ∈ bootLoop a b n s, ∃ ra rb : List ℚ,
      ra.length = a.length ∧ rb.length = b.length ∧
      (∀ x ∈ ra, x ∈ a) ∧ (∀ x ∈ rb, x ∈ b) ∧ d = meanQ rb - meanQ ra := by
  induction n generalizing s with
  | zero => intro d hd; simp [bootLoop] at hd
  | succ n ih =>
      intro d hd
      simp only [bootLoop, List.mem_cons] at hd
      rcases hd with h | h
      · subst h
        exact ⟨(sampleWR a a.length s).1, (sampleWR b b.length (sampleWR a a.length s).2).1,
          sampleWR_length a a.length s, sampleWR_length b b.length _,
          sampleWR_mem a ha a.length s, sampleWR_mem b hb b.length _, rfl⟩
      · exact ih _ d h

/-- C1: bootstrap determinism and isolation.  Two invocations of the
bootstrap estimator with identical `(A, B, B_count, seed)` produce
identical distribution buffers and identical
`(point_estimate, ci_low, ci_high)`; and in any batch of calls, each
call's result is exactly the standalone result of its own arguments —
each call's pseudo-random stream is built locally from its own seed, so
it is neither shared with nor perturbed by any other call. -/
theorem bootstrap_deterministic_and_isolated :
    (∀ a1 a2 b1 b2 B1 B2 s1 s2, a1 = a2 → b1 = b2 → B1 = B2 → s1 = s2 →
        bootstrap_samples_mean_diff a1 b1 B1 s1 = bootstrap_samples_mean_diff a2 b2 B2 s2 ∧
        bootstrap_ci_mean_diff a1 b1 B1 s1 = bootstrap_ci_mean_diff a2 b2 B2 s2) ∧
    (∀ (calls : List (List ℚ × List ℚ × ℕ × ℕ)) (i : ℕ),
        (calls.map runBootstrapCall).get? i = (calls.get? i).map runBootstrapCall) := by
  constructor
  · rintro a1 a2 b1 b2 B1 B2 s1 s2 rfl rfl rfl rfl
    exact ⟨rfl, rfl⟩
  · intro calls i
    simp [List.get?_map]

/-- Witness for C1 at a concrete call list and concrete equal inputs. -/
theorem bootstrap_deterministic_and_isolated_witness :
    (bootstrap_samples_mean_diff [1] [2] 3 5 = bootstrap_samples_mean_diff [1] [2] 3 5 ∧
     bootstrap_ci_mean_diff [1] [2] 3 5 = bootstrap_ci_mean_diff [1] [2] 3 5) ∧
    ([([1], [2], 3, 5)].map runBootstrapCall).get? 0 =
      (([([1], [2], 3, 5)] : List (List ℚ × List ℚ × ℕ × ℕ)).get? 0).map runBootstrapCall :=
  ⟨bootstrap_deterministic_and_isolated.1 [1] [1] [2] [2] 3 3 5 5 rfl rfl rfl rfl,
   bootstrap_deterministic_and_isolated.2 [([1], [2], 3, 5)] 0⟩

/-- C5: the bootstrap buffer has `B_count` entries, each entry is
`mean(resample_B) − mean(resample_A)` for with-replacement resamples of
size `|A|` from A and size `|B|` from B, and the returned point
estimate is the arithmetic mean of the buffer. -/
theorem bootstrap_buffer_and_point_estimate (a b : List ℚ) (B seed : ℕ)
    (ha : a ≠ []) (hb : b ≠ []) :
    (bootstrap_samples_mean_diff a b B seed).length = B ∧
    (∀ d ∈ bootstrap_samples_mean_diff a b B seed, ∃ ra rb : List ℚ,
        ra.length = a.length ∧ rb.length = b.length ∧
        (∀ x ∈ ra, x ∈ a) ∧ (∀ x ∈ rb, x ∈ b) ∧ d = meanQ rb - meanQ ra) ∧
    (bootstrap_ci_mean_diff a b B seed).1 = meanQ (bootstrap_samples_mean_diff a b B seed) :=
  ⟨bootLoop_length a b B _, bootLoop_shape a b ha hb B _, rfl⟩

/-- Witness for C5 at `A = [1]`, `B = [2, 3]`, `B_count = 2`, seed 7. -/
theorem bootstrap_buffer_and_point_estimate_witness :
    (bootstrap_samples_mean_diff [1] [2, 3] 2 7).length = 2 ∧
    (∀ d ∈ bootstrap_samples_mean_diff [1] [2, 3] 2 7, ∃ ra rb : List ℚ,
        ra.length = ([1] : List ℚ).length ∧ rb.length = ([2, 3] : List ℚ).length ∧
        (∀ x ∈ ra, x ∈ ([1] : List ℚ)) ∧ (∀ x ∈ rb, x ∈ ([2, 3] : List ℚ)) ∧
        d = meanQ rb - meanQ ra) ∧
    (bootstrap_ci_mean_diff [1] [2, 3] 2 7).1 = meanQ (bootstrap_samples_mean_diff [1] [2, 3] 2 7) :=
  bootstrap_buffer_and_point_estimate [1] [2, 3] 2 7 (by decide) (by decide)

/-- C6: for every run with `B_count ≥ 1`, both bootstrap CI functions
return `ci_low ≤ ci_high`, the 2.5th and 97.5th percentiles of the
distribution buffer. -/
theorem bootstrap_ci_low_le_high (a b : List ℚ) (B seed : ℕ) (hB : 1 ≤ B) :
    (bootstrap_ci_mean_diff a b B seed).2.1 ≤ (bootstrap_ci_mean_diff a b B seed).2.2 ∧
    (bootstrap_ci_prop_diff a b B seed).2.1 ≤ (bootstrap_ci_prop_diff a b B seed).2.2 := by
  have hne : bootLoop a b B (rngNext seed) ≠ [] := by
    intro h
    have hl := bootLoop_length a b B (rngNext seed)
    rw [h] at hl
    simp at hl
    omega
  exact ⟨percentileQ_mono _ hne (by norm_num) (by norm_num) (by norm_num),
         percentileQ_mono _ hne (by norm_num) (by norm_num) (by norm_num)⟩

/-- Witness for C6 at `A = [1]`, `B = [2]`, `B_count = 1`, seed 0. -/
theorem bootstrap_ci_low_le_high_witness :
    (bootstrap_ci_mean_diff [1] [2] 1 0).2.1 ≤ (bootstrap_ci_mean_diff [1] [2] 1 0).2.2 ∧
    (bootstrap_ci_prop_diff [1] [2] 1 0).2.1 ≤ (bootstrap_ci_prop_diff [1] [2] 1 0).2.2 :=
  bootstrap_ci_low_le_high [1] [2] 1 0 (by decide)

/-!
SRM sanity check (Overview tab): `expected = np.array([0.5, 0.5]) * total`,
`chi2 = ((observed - expected) ** 2 / expected).sum()`,
`pval = 1 - stats.chi2.cdf(chi2, df=1)`, and the interpretation string is
"No SRM" when `pval > 0.05`.  numpy elementwise arithmetic does not raise
on division by zero — `0.0/0.0` is `nan` — so the values are modelled by
`NpReal`, an exact real together with `nan` and the infinities.
-/

/-- A numpy floating-point value: an exact real, `nan`, or an infinity. -/
inductive NpReal where
  | num (x : ℝ)
  | nan
  | inf
  | ninf

/-- numpy elementwise addition on `NpReal`. -/
def npAdd : NpReal → NpReal → NpReal
  | NpReal.nan, _ => NpReal.nan
  | _, NpReal.nan => NpReal.nan
  | NpReal.num a, NpReal.num b => NpReal.num (a + b)
  | NpReal.num _, NpReal.inf => NpReal.inf
  | NpReal.inf, NpReal.num _ => NpReal.inf
  | NpReal.num _, NpReal.ninf => NpReal.ninf
  | NpReal.ninf, NpReal.num _ => NpReal.ninf
  | NpReal.inf, NpReal.inf => NpReal.inf
  | NpReal.ninf, NpReal.ninf => NpReal.ninf
  | NpReal.inf, NpReal.ninf => NpReal.nan
  | NpReal.ninf, NpReal.inf => NpReal.nan

/-- numpy elementwise subtraction on `NpReal`. -/
def npSub : NpReal → NpReal → NpReal
  | NpReal.nan, _ => NpReal.nan
  | _, NpReal.nan => NpReal.nan
  | NpReal.num a, NpReal.num b => NpReal.num (a - b)
  | NpReal.num _, NpReal.inf => NpReal.ninf
  | NpReal.inf, NpReal.num _ => NpReal.inf
  | NpReal.num _, NpReal.ninf => NpReal.inf
  | NpReal.ninf, NpReal.num _ => NpReal.ninf
  | NpReal.inf, NpReal.inf => NpReal.nan
  | NpReal.ninf, NpReal.ninf => NpReal.nan
  | NpReal.inf, NpReal.ninf => NpReal.inf
  | NpReal.ninf, NpReal.inf => NpReal.ninf

open scoped Classical in
/-- numpy elementwise division of finite values: `0/0 = nan`, a nonzero
value over `0` is a signed infinity, otherwise the exact quotient. -/
noncomputable def npDiv (a b : ℝ) : NpReal :=
  if b = 0 then (if a = 0 then NpReal.nan else if 0 < a then NpReal.inf else NpReal.ninf)
  else NpReal.num (a / b)

/-- Python/numpy strict `>` comparison lifted to `NpReal`: any
comparison involving `nan` is false. -/
def npGt : NpReal → NpReal → Prop
  | NpReal.num a, NpReal.num b => b < a
  | NpReal.inf, NpReal.num _ => True
  | NpReal.num _, NpReal.ninf => True
  | NpReal.inf, NpReal.ninf => True
  | _, _ => False

/-- The chi-square CDF with one degree of freedom (`stats.chi2.cdf(x, df=1)`):
the integral of the chi-square density over `(0, x]`. -/
noncomputable def chi2cdf1 (x : ℝ) : ℝ :=
  ∫ t in Set.Ioc 0 x, (Real.sqrt (2 * Real.pi * t))⁻¹ * Real.exp (-t / 2)

/-- `stats.chi2.cdf` lifted to `NpReal`: scipy maps `nan` to `nan` and
the infinities to the distribution's limits. -/
noncomputable def npChi2cdf1 : NpReal → NpReal
  | NpReal.num x => NpReal.num (chi2cdf1 x)
  | NpReal.nan => NpReal.nan
  | NpReal.inf => NpReal.num 1
  | NpReal.ninf => NpReal.num 0

/-- SRM statistic: `chi2 = ((observed - expected) ** 2 / expected).sum()`
with `observed = [users_a, users_b]` and `expected = 0.5 * total` per arm. -/
noncomputable def srmChi2 (ua ub : ℕ) : NpReal :=
  npAdd (npDiv (((ua : ℝ) - 0.5 * ((ua : ℝ) + (ub : ℝ))) ^ 2) (0.5 * ((ua : ℝ) + (ub : ℝ))))
        (npDiv (((ub : ℝ) - 0.5 * ((ua : ℝ) + (ub : ℝ))) ^ 2) (0.5 * ((ua : ℝ) + (ub : ℝ))))

/-- SRM p-value: `pval = 1 - stats.chi2.cdf(chi2, df=1)`. -/
noncomputable def srmPval (ua ub : ℕ) : NpReal :=
  npSub (NpReal.num 1) (npChi2cdf1 (srmChi2 ua ub))

/-- The SRM block as seen by its caller: it always completes with the
`(chi2, p)` pair — numpy's elementwise division never raises, so there
is no error path in lines 91–97 of the source. -/
noncomputable def srmResult (ua ub : ℕ) : Except ErrKind (NpReal × NpReal) :=
  Except.ok (srmChi2 ua ub, srmPval ua ub)

theorem chi2cdf1_zero : chi2cdf1 0 = 0 := by
  unfold chi2cdf1
  rw [Set.Ioc_self]
  exact MeasureTheory.setIntegral_empty

/-- C7: on balanced data (`users_A = users_B = u > 0`) the SRM check
yields `chi2 = 0`, `p = 1`, and the not-flagged interpretation
(`p > 0.05`, displayed as "No SRM"). -/
theorem srm_balanced (u : ℕ) (hu : 0 < u) :
    srmChi2 u u = NpReal.num 0 ∧ srmPval u u = NpReal.num 1 ∧
      npGt (srmPval u u) (NpReal.num 0.05) := by
  have hne : ((u : ℝ)) ≠ 0 := Nat.cast_ne_zero.mpr hu.ne'
  have he : (0.5 : ℝ) * ((u : ℝ) + (u : ℝ)) = (u : ℝ) := by ring
  have hchi : srmChi2 u u = NpReal.num 0 := by
    unfold srmChi2
    rw [he]
    simp [npDiv, hne, npAdd]
  refine ⟨hchi, ?_, ?_⟩
  · unfold srmPval
    rw [hchi]
    simp [npChi2cdf1, chi2cdf1_zero, npSub]
  · unfold srmPval
    rw [hchi]
    simp only [npChi2cdf1, chi2cdf1_zero, npSub]
    show (0.05 : ℝ) < 1 - 0
    norm_num

/-- Witness for C7 at `users_A = users_B = 10000`. -/
theorem srm_balanced_witness :
    srmChi2 10000 10000 = NpReal.num 0 ∧ srmPval 10000 10000 = NpReal.num 1 ∧
      npGt (srmPval 10000 10000) (NpReal.num 0.05) :=
  srm_balanced 10000 (by norm_num)

theorem srmChi2_zero_zero : srmChi2 0 0 = NpReal.nan := by
  unfold srmChi2
  norm_num [npDiv, npAdd]

theorem srmPval_zero_zero : srmPval 0 0 = NpReal.nan := by
  unfold srmPval
  rw [srmChi2_zero_zero]
  simp [npChi2cdf1, npSub]

/-- C4 counterexample: with zero observed units in both arms (so both
expected counts are zero), the SRM block does not fail with
`InvalidAllocation`: it completes normally, computing `chi2 = nan` and
`p = nan` (numpy `0.0/0.0`). -/
theorem srm_zero_total_counterexample :
    srmResult 0 0 = Except.ok (NpReal.nan, NpReal.nan) := by
  unfold srmResult
  rw [srmChi2_zero_zero, srmPval_zero_zero]

/-- C4 (amended): whenever some expected count is zero — under the
uniform 50/50 split exactly when the total observed count is zero — the
SRM block produces no typed error: it returns `chi2 = nan`, `p = nan`,
and the `p > 0.05` comparison is false, so the block reports
"Potential SRM (p ≤ 0.05)". -/
theorem srm_zero_expected_nan (ua ub : ℕ) (h : ua + ub = 0) :
    srmResult ua ub = Except.ok (NpReal.nan, NpReal.nan) ∧
      ¬ npGt (srmPval ua ub) (NpReal.num 0.05) := by
  have hua : ua = 0 := by omega
  have hub : ub = 0 := by omega
  subst hua; subst hub
  refine ⟨?_, ?_⟩
  · unfold srmResult
    rw [srmChi2_zero_zero, srmPval_zero_zero]
  · rw [srmPval_zero_zero]
    simp [npGt]

/-- Witness for the amended C4 statement at `users_A = users_B = 0`. -/
theorem srm_zero_expected_nan_witness :
    srmResult 0 0 = Except.ok (NpReal.nan, NpReal.nan) ∧
      ¬ npGt (srmPval 0 0) (NpReal.num 0.05) :=
  srm_zero_expected_nan 0 0 rfl

/-!
Significance tab (`tab_tests`, duplicated verbatim at lines 117–178 and
349–411 of the source): a two-proportion z-test on conversion counts and
a Welch t-test on summary statistics.  Python scalar division raises
`ZeroDivisionError` on a zero denominator, so each division is a fallible
step; the whole block runs inside a `try`, whose `except` handler merely
displays whatever exception reaches it.
-/

open scoped Classical in
/-- Python float division: raises `ZeroDivisionError` when the
denominator is zero, whatever the numerator. -/
noncomputable def pydivR (a b : ℝ) : Except ErrKind ℝ :=
  if b = 0 then Except.error ErrKind.zeroDivisionError else Except.ok (a / b)

/-- Standard normal CDF `stats.norm.cdf`. -/
noncomputable def normCdf (x : ℝ) : ℝ :=
  ∫ t in Set.Iic x, (Real.sqrt (2 * Real.pi))⁻¹ * Real.exp (-t ^ 2 / 2)

/-- Student-t CDF `stats.t.cdf(x, d)` with `d` degrees of freedom. -/
noncomputable def tcdf (d x : ℝ) : ℝ :=
  ∫ t in Set.Iic x,
    (Real.Gamma ((d + 1) / 2) / (Real.sqrt (d * Real.pi) * Real.Gamma (d / 2))) *
      (1 + t ^ 2 / d) ^ (-(d + 1) / 2)

/-- Output of the two-proportion z-test block. -/
structure PropOut where
  p_a : ℝ
  p_b : ℝ
  effect : ℝ
  z : ℝ
  p : ℝ

/-- Output of the Welch t-test block. -/
structure WelchOut where
  effect : ℝ
  t : ℝ
  df : ℝ
  p : ℝ

open scoped Classical in
/-- The two-proportion z-test block (source lines 128–147):
`p = x/n` per arm, unpooled standard error, `z = (p_b - p_a)/se` when
`se > 0` else `0`, two-sided p-value from the normal CDF. -/
noncomputable def propBlock (a_n b_n a_x b_x : ℕ) : Except ErrKind PropOut := do
  let p_a ← pydivR (a_x : ℝ) (a_n : ℝ)
  let p_b ← pydivR (b_x : ℝ) (b_n : ℝ)
  let s1 ← pydivR (p_a * (1 - p_a)) (a_n : ℝ)
  let s2 ← pydivR (p_b * (1 - p_b)) (b_n : ℝ)
  let se := Real.sqrt (s1 + s2)
  let z := if 0 < se then (p_b - p_a) / se else 0
  let p := 2 * (1 - normCdf |z|)
  return ⟨p_a, p_b, p_b - p_a, z, p⟩

open scoped Classical in
/-- The Welch t-test block on summary statistics (source lines 149–161):
`se = sqrt(v_a/n_a + v_b/n_b)`, `t = diff/se` when `se > 0` else `0`,
Welch–Satterthwaite `df = num/den` guarded by `den > 0` with fallback
`n_a + n_b - 2`, two-sided p-value from the Student-t CDF.  Each `/` is
Python division and may raise. -/
noncomputable def welchBlock (a_n b_n : ℕ) (m_a m_b v_a v_b : ℝ) : Except ErrKind WelchOut := do
  let q1 ← pydivR v_a (a_n : ℝ)
  let q2 ← pydivR v_b (b_n : ℝ)
  let se := Real.sqrt (q1 + q2)
  let t := if 0 < se then (m_b - m_a) / se else 0
  let num := (q1 + q2) ^ 2
  let d1 ← pydivR (v_a ^ 2) ((a_n : ℝ) ^ 2 * ((a_n : ℝ) - 1))
  let d2 ← pydivR (v_b ^ 2) ((b_n : ℝ) ^ 2 * ((b_n : ℝ) - 1))
  let den := d1 + d2
  let df := if 0 < den then num / den else ((a_n : ℝ) + (b_n : ℝ) - 2)
  let p := 2 * (1 - tcdf df |t|)
  return ⟨m_b - m_a, t, df, p⟩

/-- The specification's unpooled standard error
`sqrt(p_a(1-p_a)/n_a + p_b(1-p_b)/n_b)`, written from the spec's words
for comparison with the code block. -/
noncomputable def specSE (a_n b_n a_x b_x : ℕ) : ℝ :=
  Real.sqrt ((a_x : ℝ) / a_n * (1 - (a_x : ℝ) / a_n) / a_n +
             (b_x : ℝ) / b_n * (1 - (b_x : ℝ) / b_n) / b_n)

open scoped Classical in
/-- The specification's z statistic with the `se = 0 ⇒ z = 0` degeneracy
policy, written from the spec's words. -/
noncomputable def specZ (a_n b_n a_x b_x : ℕ) : ℝ :=
  if 0 < specSE a_n b_n a_x b_x
  then ((b_x : ℝ) / b_n - (a_x : ℝ) / a_n) / specSE a_n b_n a_x b_x
  else 0

/-- C2: with `n_a = 1` the Welch block never reaches the
`df = n_a + n_b - 2` fallback: evaluating
`den = v_a**2 / ((n_a**2)*(n_a-1)) + ...` divides by zero first, so the
block raises `ZeroDivisionError` (caught and displayed by the tab's
generic exception handler) for every `n_b`, means and variances. -/
theorem welch_n_a_one_raises (b_n : ℕ) (m_a m_b v_a v_b : ℝ) :
    welchBlock 1 b_n m_a m_b v_a v_b = Except.error ErrKind.zeroDivisionError := by
  have h1 : ((1 : ℕ) : ℝ) ≠ 0 := by norm_num
  have hden : ((1 : ℕ) : ℝ) ^ 2 * (((1 : ℕ) : ℝ) - 1) = 0 := by norm_num
  unfold welchBlock pydivR
  by_cases hb : (b_n : ℝ) = 0
  · simp only [if_neg h1, if_pos hb]
    rfl
  · simp only [if_neg h1, if_neg hb, if_pos hden]
    rfl

/-- C3 counterexample: at `n_a = 0` the proportion block raises the
untyped `ZeroDivisionError` from `p_a = x_a / n_a`; it does not produce
the typed `InsufficientSample` error the claim asserts. -/
theorem prop_zero_n_counterexample :
    propBlock 0 5 0 3 = Except.error ErrKind.zeroDivisionError ∧
      propBlock 0 5 0 3 ≠ Except.error ErrKind.insufficientSample := by
  have h : propBlock 0 5 0 3 = Except.error ErrKind.zeroDivisionError := by
    have h0 : ((0 : ℕ) : ℝ) = 0 := Nat.cast_zero
    unfold propBlock pydivR
    simp only [if_pos h0]
    rfl
  refine ⟨h, ?_⟩
  rw [h]
  simp

/-- C3 (amended): for `n = 0` in either arm, the two-proportion block
fails — but with the untyped Python `ZeroDivisionError`, caught and
displayed by the tab's generic `except` handler; no typed
`InsufficientSample` result exists in the code. -/
theorem prop_zero_n_raises (a_n b_n a_x b_x : ℕ) (h : a_n = 0 ∨ b_n = 0) :
    propBlock a_n b_n a_x b_x = Except.error ErrKind.zeroDivisionError := by
  have h0 : ((0 : ℕ) : ℝ) = 0 := Nat.cast_zero
  rcases h with h | h
  · subst h
    unfold propBlock pydivR
    simp only [if_pos h0]
    rfl
  · subst h
    unfold propBlock pydivR
    by_cases ha : (a_n : ℝ) = 0
    · simp only [if_pos ha]
      rfl
    · simp only [if_neg ha, if_pos h0]
      rfl

/-- Witness for the amended C3 statement at `n_a = 0`. -/
theorem prop_zero_n_raises_witness :
    propBlock 0 5 0 3 = Except.error ErrKind.zeroDivisionError :=
  prop_zero_n_raises 0 5 0 3 (Or.inl rfl)

/-- C8: with positive trial counts in both arms, the two-proportion
block returns (no exception) `p = x/n` per arm, `effect = p_b - p_a`,
the z statistic `(p_b - p_a)/se` for the unpooled
`se = sqrt(p_a(1-p_a)/n_a + p_b(1-p_b)/n_b)` with the `se = 0 ⇒ z = 0`
degeneracy policy, and two-sided p-value `2·(1 - Φ(|z|))`. -/
theorem prop_test_formulas (a_n b_n a_x b_x : ℕ) (ha : 0 < a_n) (hb : 0 < b_n) :
    propBlock a_n b_n a_x b_x = Except.ok
      ⟨(a_x : ℝ) / a_n, (b_x : ℝ) / b_n, (b_x : ℝ) / b_n - (a_x : ℝ) / a_n,
        specZ a_n b_n a_x b_x,
        2 * (1 - normCdf |specZ a_n b_n a_x b_x|)⟩ ∧
      (specSE a_n b_n a_x b_x = 0 → specZ a_n b_n a_x b_x = 0) := by
  have ha' : ((a_n : ℝ)) ≠ 0 := Nat.cast_ne_zero.mpr ha.ne'
  have hb' : ((b_n : ℝ)) ≠ 0 := Nat.cast_ne_zero.mpr hb.ne'
  constructor
  · unfold propBlock pydivR specZ specSE
    simp only [if_neg ha', if_neg hb']
    rfl
  · intro h0
    unfold specZ
    rw [if_neg]
    rw [h0]
    exact lt_irrefl 0

/-!
CUPED tab (source lines 414–455): rows `(Y, X)` pooled over both arms,
`X` filled with `0.0` where missing (`uop["X"].fillna(0.0)`),
`theta = cov(Y, X)/var(X)` (ddof = 1) when `var(X) > 0` else `0`, and
`Y_cuped = Y - theta * (X - mean(X))` per unit. -/

/-- Sample variance with divisor `n - 1` (`np.var(·, ddof=1)`). -/
def varQ (l : List ℚ) : ℚ :=
  (l.map (fun x => (x - meanQ l) ^ 2)).sum / ((l.length : ℚ) - 1)

/-- Sample covariance with divisor `n - 1` (`np.cov(y, x, ddof=1)[0, 1]`). -/
def covQ (y x : List ℚ) : ℚ :=
  ((y.zip x).map (fun p => (p.1 - meanQ y) * (p.2 - meanQ x))).sum / ((y.length : ℚ) - 1)

/-- The covariate column after `fillna(0.0)`: a missing `X` enters the
computation as `0`. -/
def fillX (rows : List (ℚ × Option ℚ)) : List ℚ := rows.map (fun r => r.2.getD 0)

/-- The outcome column `Y`. -/
def rowsY (rows : List (ℚ × Option ℚ)) : List ℚ := rows.map Prod.fst

/-- `theta = covYX / varX if varX > 0 else 0.0` over the pooled sample. -/
def thetaQ (rows : List (ℚ × Option ℚ)) : ℚ :=
  if 0 < varQ (fillX rows) then covQ (rowsY rows) (fillX rows) / varQ (fillX rows) else 0

/-- `Y_cuped = Y - theta * (X - X.mean())` per unit, using the pooled
mean of the filled covariate. -/
def yCuped (rows : List (ℚ × Option ℚ)) : List ℚ :=
  rows.map (fun r => r.1 - thetaQ rows * (r.2.getD 0 - meanQ (fillX rows)))

theorem meanQ_replicate (n : ℕ) (c : ℚ) (hn : n ≠ 0) :
    meanQ (List.replicate n c) = c := by
  unfold meanQ
  rw [List.sum_replicate, List.length_replicate]
  rw [nsmul_eq_mul]
  exact mul_div_cancel_left₀ c (Nat.cast_ne_zero.mpr hn)

theorem varQ_replicate (n : ℕ) (c : ℚ) (hn : n ≠ 0) :
    varQ (List.replicate n c) = 0 := by
  unfold varQ
  rw [meanQ_replicate n c hn]
  have : (List.replicate n c).map (fun x => (x - c) ^ 2) = List.replicate n 0 := by
    rw [List.map_replicate]
    simp
  rw [this, List.sum_replicate]
  simp

theorem fillX_const (rows : List (ℚ × Option ℚ)) (c : ℚ)
    (hc : ∀ r ∈ rows, r.2 = some c) :
    fillX rows = List.replicate rows.length c := by
  induction rows with
  | nil => rfl
  | cons r rs ih =>
      have hr : r.2 = some c := hc r (List.mem_cons_self r rs)
      have hrs : ∀ x ∈ rs, x.2 = some c := fun x hx => hc x (List.mem_cons_of_mem r hx)
      simp [fillX, List.replicate, hr, ih hrs] at *
      simpa [fillX] using ih hrs

/-- C9: when the pre-period covariate is the same value for every unit,
the adjuster computes `theta = 0` and the adjusted outcome equals the
raw outcome exactly for every unit. -/
theorem cuped_constant_covariate_noop (rows : List (ℚ × Option ℚ)) (c : ℚ)
    (hne : rows ≠ []) (hc : ∀ r ∈ rows, r.2 = some c) :
    thetaQ rows = 0 ∧ yCuped rows = rowsY rows := by
  have hn : rows.length ≠ 0 := fun h => hne (List.length_eq_zero.mp h)
  have hfill : fillX rows = List.replicate rows.length c := fillX_const rows c hc
  have hvar : varQ (fillX rows) = 0 := by rw [hfill]; exact varQ_replicate _ _ hn
  have ht : thetaQ rows = 0 := by
    unfold thetaQ
    rw [if_neg]
    rw [hvar]
    exact lt_irrefl 0
  refine ⟨ht, ?_⟩
  unfold yCuped rowsY
  simp only [ht, zero_mul, sub_zero]

/-- Witness for C9 on two units with constant covariate `2`. -/
theorem cuped_constant_covariate_noop_witness :
    thetaQ [(1, some 2), (3, some 2)] = 0 ∧
      yCuped [(1, some 2), (3, some 2)] = rowsY [(1, some 2), (3, some 2)] :=
  cuped_constant_covariate_noop [(1, some 2), (3, some 2)] 2 (by simp) (by simp)

theorem fillX_subst (rows : List (ℚ × Option ℚ)) :
    fillX (rows.map (fun r => (r.1, some (r.2.getD 0)))) = fillX rows := by
  unfold fillX
  rw [List.map_map]
  rfl

theorem rowsY_subst (rows : List (ℚ × Option ℚ)) :
    rowsY (rows.map (fun r => (r.1, some (r.2.getD 0)))) = rowsY rows := by
  unfold rowsY
  rw [List.map_map]
  rfl

/-- C10: the adjuster's missing-covariate policy is substitution of `0`:
replacing every missing covariate by `some 0` up front changes nothing —
`theta`, the pooled mean of X, and every adjusted outcome are identical —
and no unit is dropped (the adjusted column has one entry per input row). -/
theorem cuped_missing_covariate_policy (rows : List (ℚ × Option ℚ)) :
    thetaQ (rows.map (fun r => (r.1, some (r.2.getD 0)))) = thetaQ rows ∧
    meanQ (fillX (rows.map (fun r => (r.1, some (r.2.getD 0))))) = meanQ (fillX rows) ∧
    yCuped (rows.map (fun r => (r.1, some (r.2.getD 0)))) = yCuped rows ∧
    (yCuped rows).length = rows.length := by
  have ht : thetaQ (rows.map (fun r => (r.1, some (r.2.getD 0)))) = thetaQ rows := by
    unfold thetaQ
    rw [fillX_subst, rowsY_subst]
  refine ⟨ht, by rw [fillX_subst], ?_, by unfold yCuped; rw [List.length_map]⟩
  unfold yCuped
  rw [ht, fillX_subst, List.map_map]
  rfl

/-- Witness for C8 at `n_a = n_b = 1`, `x_a = x_b = 0`. -/
theorem prop_test_formulas_witness :
    propBlock 1 1 0 0 = Except.ok
      ⟨((0 : ℕ) : ℝ) / ((1 : ℕ) : ℝ), ((0 : ℕ) : ℝ) / ((1 : ℕ) : ℝ),
        ((0 : ℕ) : ℝ) / ((1 : ℕ) : ℝ) - ((0 : ℕ) : ℝ) / ((1 : ℕ) : ℝ),
        specZ 1 1 0 0, 2 * (1 - normCdf |specZ 1 1 0 0|)⟩ ∧
      (specSE 1 1 0 0 = 0 → specZ 1 1 0 0 = 0) :=
  prop_test_formulas 1 1 0 0 (by norm_num) (by norm_num)
